/-
Verification of the payload-encoding, validation and color-contrast layer of
the qr-generator repository (src/utils/qr-encoding.ts, src/utils/color-contrast.ts
and the validation utilities).

Strings are modelled as `List Char`.  JavaScript optional string fields are
modelled as `Option (List Char)`; the JavaScript truthiness test used by the
encoders (`if (s)`) is `jsTruthy`, which is false exactly on an absent field
and on the empty string.  JavaScript numbers appear in the validators and are
modelled by `JSNum` (NaN, the two infinities, or an exact finite value), and in
the color-contrast computation, where they are modelled by real numbers.
-/
import Mathlib

namespace QRGen

/-- A single JavaScript global regex replacement of the one-character pattern
`c` by the replacement `r`, as performed by `String.prototype.replace` with a
`/x/g` pattern consisting of one literal character. -/
def replaceAll (c : Char) (r : List Char) : List Char → List Char
  | [] => []
  | x :: xs => (if x = c then r else [x]) ++ replaceAll c r xs

/-- Function `escapeWiFiString` from src/utils/qr-encoding.ts: escape backslash first,
then semicolon, comma, colon and double quote, each by a preceding
backslash. -/
def escapeWiFiString (s : List Char) : List Char :=
  replaceAll '"' ['\\', '"']
    (replaceAll ':' ['\\', ':']
      (replaceAll ',' ['\\', ',']
        (replaceAll ';' ['\\', ';']
          (replaceAll '\\' ['\\', '\\'] s))))

/-- Removal of one level of backslash escaping: a backslash consumes the
following character, which is emitted verbatim.  This is the un-escaping
procedure a scanner applies to the SSID and password segments of a WIFI:
payload; it is the inverse direction of the round-trip stated in the spec. -/
def unescapeWiFi : List Char → List Char
  | [] => []
  | [x] => [x]
  | x :: y :: rest =>
      if x = '\\' then y :: unescapeWiFi rest
      else x :: unescapeWiFi (y :: rest)

/-- The five characters escaped by `escapeWiFiString`. -/
def wifiSpecial (c : Char) : Bool :=
  c == '\\' || c == ';' || c == ',' || c == ':' || c == '"'

/-- WiFi encryption types, from src/utils/qr-encoding.ts. -/
inductive WiFiEncryption
  | WPA
  | WEP
  | nopass
deriving DecidableEq

/-- The text of the `T:` tag for each encryption value (the template string
interpolates the encryption value directly). -/
def encTag : WiFiEncryption → List Char
  | .WPA => "WPA".data
  | .WEP => "WEP".data
  | .nopass => "nopass".data

/-- WiFi credentials, from src/utils/qr-encoding.ts.  `password` and `hidden`
are optional; the destructuring defaults in `encodeWiFi` are the empty string
and `false`. -/
structure WiFiCredentials where
  ssid : List Char
  password : Option (List Char)
  encryption : WiFiEncryption
  hidden : Option Bool

/-- Function `encodeWiFi` from src/utils/qr-encoding.ts. -/
def encodeWiFi (credentials : WiFiCredentials) : List Char :=
  let ssid := credentials.ssid
  let password := (credentials.password).getD []
  let hidden := (credentials.hidden).getD false
  let escapedSSID := escapeWiFiString ssid
  let escapedPassword := escapeWiFiString password
  let wifiString :=
    "WIFI:T:".data ++ encTag credentials.encryption ++ ";S:".data
      ++ escapedSSID ++ ";".data
  let wifiString :=
    if credentials.encryption ≠ WiFiEncryption.nopass ∧ password ≠ [] then
      wifiString ++ "P:".data ++ escapedPassword ++ ";".data
    else wifiString
  let wifiString :=
    if hidden then wifiString ++ "H:true;".data else wifiString
  wifiString ++ ";".data

/-- The digit stripping shared by `encodePhone`, `encodeSMS` and `encodeVCard`
in src/utils/qr-encoding.ts: `phone.replace(/[^\d+]/g, "")`, which keeps
exactly the decimal digits and every plus sign. -/
def cleanPhone (s : List Char) : List Char :=
  s.filter (fun c => c.isDigit || c == '+')

/-- Function `encodePhone` from src/utils/qr-encoding.ts. -/
def encodePhone (phoneNumber : List Char) : List Char :=
  "tel:".data ++ cleanPhone phoneNumber

/-- SMS data, from src/utils/qr-encoding.ts. -/
structure SMSData where
  phone : List Char
  message : Option (List Char)

/-- JavaScript truthiness of an optional string value: `undefined` and the
empty string are falsy, every non-empty string is truthy. -/
def jsTruthy : Option (List Char) → Bool
  | none => false
  | some s => !s.isEmpty

/-- Function `encodeSMS` from src/utils/qr-encoding.ts. -/
def encodeSMS (data : SMSData) : List Char :=
  let cleanedNumber := cleanPhone data.phone
  if jsTruthy data.message then
    "smsto:".data ++ cleanedNumber ++ ":".data ++ (data.message).getD []
  else
    "smsto:".data ++ cleanedNumber

/-- Email data, from src/utils/qr-encoding.ts. -/
structure EmailData where
  email : List Char
  subject : Option (List Char)
  body : Option (List Char)

/-- The characters left unescaped by the ECMAScript builtin
`encodeURIComponent`: letters, digits and `- _ . ! ~ * ' ( )`. -/
def uriUnreserved (c : Char) : Bool :=
  ('A' ≤ c && c ≤ 'Z') || ('a' ≤ c && c ≤ 'z') || ('0' ≤ c && c ≤ '9') ||
    c == '-' || c == '_' || c == '.' || c == '!' || c == '~' || c == '*' ||
    c == Char.ofNat 39 || c == '(' || c == ')'

/-- Upper-case hexadecimal digit of a value below 16. -/
def hexDigitUpper (n : Nat) : Char :=
  if n < 10 then Char.ofNat (48 + n) else Char.ofNat (65 + (n - 10))

/-- Percent-encoding of one byte, `%XX` with upper-case hex digits. -/
def percentByte (b : Nat) : List Char :=
  ['%', hexDigitUpper (b / 16), hexDigitUpper (b % 16)]

/-- UTF-8 encoding of one Unicode scalar value, as a list of byte values. -/
def utf8Bytes (c : Char) : List Nat :=
  let n := c.toNat
  if n < 128 then [n]
  else if n < 2048 then [192 + n / 64, 128 + n % 64]
  else if n < 65536 then [224 + n / 4096, 128 + (n / 64) % 64, 128 + n % 64]
  else [240 + n / 262144, 128 + (n / 4096) % 64, 128 + (n / 64) % 64, 128 + n % 64]

/-- The ECMAScript builtin `encodeURIComponent`: unreserved characters are
copied, every other character is replaced by the percent-encoding of its
UTF-8 bytes. -/
def encodeURIComponent (s : List Char) : List Char :=
  s.flatMap (fun c =>
    if uriUnreserved c then [c] else (utf8Bytes c).flatMap percentByte)

/-- Function `encodeEmail` from src/utils/qr-encoding.ts. -/
def encodeEmail (data : EmailData) : List Char :=
  let mailtoUrl := "mailto:".data ++ data.email
  let params : List (List Char) :=
    (if jsTruthy data.subject then
      ["subject=".data ++ encodeURIComponent ((data.subject).getD [])]
     else []) ++
    (if jsTruthy data.body then
      ["body=".data ++ encodeURIComponent ((data.body).getD [])]
     else [])
  if params.length > 0 then
    mailtoUrl ++ "?".data ++ List.intercalate "&".data params
  else mailtoUrl

/-- The mailto form stated by the spec: `mailto:<email>` optionally followed
by `?subject=<percent-encoded>&body=<percent-encoded>`, the subject and body
each percent-encoded independently and omitted when not present (absent or
empty), the query omitted entirely when neither is present. -/
def mailtoSpecForm (data : EmailData) : List Char :=
  "mailto:".data ++ data.email ++
    (if jsTruthy data.subject then
      if jsTruthy data.body then
        "?subject=".data ++ encodeURIComponent ((data.subject).getD [])
          ++ "&body=".data ++ encodeURIComponent ((data.body).getD [])
      else "?subject=".data ++ encodeURIComponent ((data.subject).getD [])
     else if jsTruthy data.body then
      "?body=".data ++ encodeURIComponent ((data.body).getD [])
     else [])

/-- vCard contact data, from src/utils/qr-encoding.ts. -/
structure VCardData where
  firstName : List Char
  lastName : List Char
  organization : Option (List Char)
  title : Option (List Char)
  phone : Option (List Char)
  email : Option (List Char)
  url : Option (List Char)
  address : Option (List Char)
  note : Option (List Char)

/-- Function `encodeVCard` from src/utils/qr-encoding.ts. -/
def encodeVCard (data : VCardData) : List Char :=
  let vcard := "BEGIN:VCARD\n".data
  let vcard := vcard ++ "VERSION:3.0\n".data
  let vcard := vcard ++ "N:".data ++ data.lastName ++ ";".data
    ++ data.firstName ++ ";;;\n".data
  let vcard := vcard ++ "FN:".data ++ data.firstName ++ " ".data
    ++ data.lastName ++ "\n".data
  let vcard := if jsTruthy data.organization then
    vcard ++ "ORG:".data ++ (data.organization).getD [] ++ "\n".data else vcard
  let vcard := if jsTruthy data.title then
    vcard ++ "TITLE:".data ++ (data.title).getD [] ++ "\n".data else vcard
  let vcard := if jsTruthy data.phone then
    vcard ++ "TEL;TYPE=CELL:".data ++ cleanPhone ((data.phone).getD [])
      ++ "\n".data else vcard
  let vcard := if jsTruthy data.email then
    vcard ++ "EMAIL:".data ++ (data.email).getD [] ++ "\n".data else vcard
  let vcard := if jsTruthy data.url then
    vcard ++ "URL:".data ++ (data.url).getD [] ++ "\n".data else vcard
  let vcard := if jsTruthy data.address then
    vcard ++ "ADR:;;".data ++ (data.address).getD [] ++ ";;;;\n".data else vcard
  let vcard := if jsTruthy data.note then
    vcard ++ "NOTE:".data ++ (data.note).getD [] ++ "\n".data else vcard
  vcard ++ "END:VCARD".data

/-- One optional vCard line as the spec lists them: `<TAG><value>\n` when the
field is populated, nothing otherwise. -/
def vcardLine (tag : List Char) (o : Option (List Char)) : List Char :=
  if jsTruthy o then tag ++ o.getD [] ++ "\n".data else []

/-- The vCard shape stated by the spec: fixed two-line head, `N` and `FN`
lines, one line per populated optional field in the fixed order ORG, TITLE,
TEL;TYPE=CELL (digit-stripped like encodePhone), EMAIL, URL, ADR, NOTE, and
the terminating `END:VCARD`. -/
def vcardSpecForm (data : VCardData) : List Char :=
  "BEGIN:VCARD\nVERSION:3.0\n".data
    ++ "N:".data ++ data.lastName ++ ";".data ++ data.firstName ++ ";;;\n".data
    ++ "FN:".data ++ data.firstName ++ " ".data ++ data.lastName ++ "\n".data
    ++ vcardLine "ORG:".data data.organization
    ++ vcardLine "TITLE:".data data.title
    ++ (if jsTruthy data.phone then
        "TEL;TYPE=CELL:".data ++ cleanPhone ((data.phone).getD []) ++ "\n".data
       else [])
    ++ vcardLine "EMAIL:".data data.email
    ++ vcardLine "URL:".data data.url
    ++ (if jsTruthy data.address then
        "ADR:;;".data ++ (data.address).getD [] ++ ";;;;\n".data
       else [])
    ++ vcardLine "NOTE:".data data.note
    ++ "END:VCARD".data

/-- A character matched by the character class `[a-f\d]` of the hex color
regex in src/utils/color-contrast.ts, case-insensitively. -/
def isHexChar (c : Char) : Bool :=
  ('0' ≤ c && c ≤ '9') || ('a' ≤ c && c ≤ 'f') || ('A' ≤ c && c ≤ 'F')

/-- Numeric value of a hex digit character. -/
def hexVal (c : Char) : Nat :=
  if '0' ≤ c ∧ c ≤ '9' then c.toNat - 48
  else if 'a' ≤ c ∧ c ≤ 'f' then c.toNat - 97 + 10
  else if 'A' ≤ c ∧ c ≤ 'F' then c.toNat - 65 + 10
  else 0

/-- The optional leading `#` of the regex `^#?...` in `hexToRgb`. -/
def stripHash : List Char → List Char
  | '#' :: rest => rest
  | l => l

/-- Function `hexToRgb` from src/utils/color-contrast.ts: the anchored regex
`^#?([a-f\d]{2})([a-f\d]{2})([a-f\d]{2})$` (case-insensitive) matched against
the input; on a match the three two-digit groups are parsed base 16. -/
def hexToRgb (hex : List Char) : Option (Nat × Nat × Nat) :=
  match stripHash hex with
  | [c1, c2, c3, c4, c5, c6] =>
      if isHexChar c1 && isHexChar c2 && isHexChar c3 &&
          isHexChar c4 && isHexChar c5 && isHexChar c6 then
        some (16 * hexVal c1 + hexVal c2,
              16 * hexVal c3 + hexVal c4,
              16 * hexVal c5 + hexVal c6)
      else none
  | _ => none

/-- Well-formedness of a hex color exactly as the spec words it: a
6-hex-digit color with an optional leading `#`. -/
def wellFormedHex (s : List Char) : Bool :=
  match stripHash s with
  | [c1, c2, c3, c4, c5, c6] =>
      isHexChar c1 && isHexChar c2 && isHexChar c3 &&
        isHexChar c4 && isHexChar c5 && isHexChar c6
  | _ => false

/-- The piecewise sRGB-to-linear transform applied per channel in
`getLuminance` of src/utils/color-contrast.ts. -/
noncomputable def srgbLinear (x : ℝ) : ℝ :=
  if x ≤ 0.03928 then x / 12.92 else ((x + 0.055) / 1.055) ^ (2.4 : ℝ)

/-- Function `getLuminance` from src/utils/color-contrast.ts; a color that fails to
parse contributes luminance 0. -/
noncomputable def getLuminance (hex : List Char) : ℝ :=
  match hexToRgb hex with
  | none => 0
  | some (r, g, b) =>
      0.2126 * srgbLinear ((r : ℝ) / 255) +
      0.7152 * srgbLinear ((g : ℝ) / 255) +
      0.0722 * srgbLinear ((b : ℝ) / 255)

/-- Function `getContrastRatio` from src/utils/color-contrast.ts. -/
noncomputable def getContrastRatio (color1 color2 : List Char) : ℝ :=
  let lum1 := getLuminance color1
  let lum2 := getLuminance color2
  (max lum1 lum2 + 0.05) / (min lum1 lum2 + 0.05)

/-- Contrast classification levels, from src/utils/color-contrast.ts. -/
inductive ContrastLevel
  | excellent
  | good
  | fair
  | poor
deriving DecidableEq

/-- Result record of `checkContrastLevel`. -/
structure ContrastResult where
  ratio : ℝ
  level : ContrastLevel
  isScannable : Bool
  warning : Option (List Char)

/-- The low-contrast warning text of the `fair` branch. -/
def warnFair : List Char :=
  "Contrast is low. QR code may be difficult to scan in poor lighting.".data

/-- The very-low-contrast warning text of the `poor` branch. -/
def warnPoor : List Char :=
  "Contrast is too low! QR code may not scan reliably. Choose more contrasting colors.".data

/-- Function `checkContrastLevel` from src/utils/color-contrast.ts. -/
noncomputable def checkContrastLevel (foreground background : List Char) :
    ContrastResult :=
  let ratio := getContrastRatio foreground background
  if 7 ≤ ratio then ⟨ratio, .excellent, true, none⟩
  else if 4.5 ≤ ratio then ⟨ratio, .good, true, none⟩
  else if 3 ≤ ratio then ⟨ratio, .fair, true, some warnFair⟩
  else ⟨ratio, .poor, false, some warnPoor⟩

/-- The classification stated by the spec, as a function of the ratio alone:
`excellent`, scannable, no warning for ratio at least 7; `good`, scannable, no
warning from 4.5 up to 7; `fair`, scannable, with a warning from 3 up to 4.5;
`poor`, not scannable, with a warning below 3. -/
noncomputable def contrastSpecClass (ratio : ℝ) : ContrastResult :=
  if 7 ≤ ratio then ⟨ratio, .excellent, true, none⟩
  else if 4.5 ≤ ratio then ⟨ratio, .good, true, none⟩
  else if 3 ≤ ratio then ⟨ratio, .fair, true, some warnFair⟩
  else ⟨ratio, .poor, false, some warnPoor⟩

/-- A JavaScript number, restricted to what the comparison operators observe:
NaN, the infinities, or an exact finite value. -/
inductive JSNum
  | nan
  | posInf
  | negInf
  | fin (q : ℚ)
deriving DecidableEq

/-- The builtin `Number.isNaN`. -/
def jsIsNaN : JSNum → Bool
  | .nan => true
  | _ => false

/-- The JavaScript `<=` comparison: false whenever either side is NaN,
otherwise the extended-real order. -/
def jsLe : JSNum → JSNum → Bool
  | .nan, _ => false
  | _, .nan => false
  | .negInf, _ => true
  | _, .posInf => true
  | .posInf, _ => false
  | _, .negInf => false
  | .fin a, .fin b => decide (a ≤ b)

/-- The JavaScript `>=` comparison. -/
def jsGe (a b : JSNum) : Bool := jsLe b a

/-- Function `isValidLatitude` from the validation utilities:
`!Number.isNaN(lat) && lat >= -90 && lat <= 90`. -/
def isValidLatitude (lat : JSNum) : Bool :=
  !jsIsNaN lat && jsGe lat (.fin (-90)) && jsLe lat (.fin 90)

/-- Boolean check that every adjacent pair of characters in a list satisfies
the relation `R`. -/
def pairsOK (R : Char → Char → Bool) : List Char → Bool
  | [] => true
  | [_] => true
  | a :: b :: rest => R a b && pairsOK R (b :: rest)

/-- The pair relation `whenever the second character is a colon, the first
satisfies q`; used to locate the possible `X:` tags of a WIFI: payload. -/
def colB (q : Char → Bool) (a b : Char) : Bool := (b != ':') || q a

/-- Normalization of an optional string field that maps a present-but-empty
value to an absent one; used to state that the encoders treat the two
identically. -/
def emptyNorm : Option (List Char) → Option (List Char)
  | some [] => none
  | o => o

/-- The map `emptyNorm` applied to every optional field of a vCard record. -/
def vcardEmptyNorm (d : VCardData) : VCardData :=
  ⟨d.firstName, d.lastName, emptyNorm d.organization, emptyNorm d.title,
    emptyNorm d.phone, emptyNorm d.email, emptyNorm d.url,
    emptyNorm d.address, emptyNorm d.note⟩

end QRGen

namespace QRGen

theorem replaceAll_append (c : Char) (r a b : List Char) :
    replaceAll c r (a ++ b) = replaceAll c r a ++ replaceAll c r b := by
  induction a with
  | nil => simp [replaceAll]
  | cons x xs ih => simp [replaceAll, ih]

theorem escapeWiFiString_append (a b : List Char) :
    escapeWiFiString (a ++ b) = escapeWiFiString a ++ escapeWiFiString b := by
  simp [escapeWiFiString, replaceAll_append]

theorem escapeWiFiString_single (x : Char) :
    escapeWiFiString [x] = if wifiSpecial x then ['\\', x] else [x] := by
  by_cases h1 : x = '\\'
  · subst h1; decide
  by_cases h2 : x = ';'
  · subst h2; decide
  by_cases h3 : x = ','
  · subst h3; decide
  by_cases h4 : x = ':'
  · subst h4; decide
  by_cases h5 : x = '"'
  · subst h5; decide
  simp [escapeWiFiString, replaceAll, wifiSpecial, h1, h2, h3, h4, h5]

theorem escapeWiFiString_cons (x : Char) (xs : List Char) :
    escapeWiFiString (x :: xs) = escapeWiFiString [x] ++ escapeWiFiString xs := by
  have h : x :: xs = [x] ++ xs := rfl
  rw [h, escapeWiFiString_append]

theorem unescapeWiFi_cons_ne (x : Char) (l : List Char) (h : x ≠ '\\') :
    unescapeWiFi (x :: l) = x :: unescapeWiFi l := by
  cases l with
  | nil => rfl
  | cons y rest => simp [unescapeWiFi, h]

theorem unescapeWiFi_slash (y : Char) (l : List Char) :
    unescapeWiFi ('\\' :: y :: l) = y :: unescapeWiFi l := by
  simp [unescapeWiFi]

theorem unescape_escape (s : List Char) :
    unescapeWiFi (escapeWiFiString s) = s := by
  induction s with
  | nil => rfl
  | cons x xs ih =>
    rw [escapeWiFiString_cons, escapeWiFiString_single]
    cases hw : wifiSpecial x with
    | true =>
      simp only [hw, if_true, List.cons_append, List.nil_append]
      rw [unescapeWiFi_slash, ih]
    | false =>
      have hx : x ≠ '\\' := by
        intro e; rw [e] at hw; exact absurd hw (by decide)
      simp only [hw, Bool.false_eq_true, if_false, List.cons_append, List.nil_append]
      rw [unescapeWiFi_cons_ne _ _ hx, ih]

/-- C1: the escaping applied by encodeWiFi to SSID and password (backslash
escaped first, then semicolon, comma, colon, double quote) round-trips — the
un-escaping of an escaped string recovers the original exactly — and is
injective. -/
theorem C1_wifi_escape_roundtrip :
    (∀ s : List Char, unescapeWiFi (escapeWiFiString s) = s) ∧
    (∀ s t : List Char, escapeWiFiString s = escapeWiFiString t → s = t) := by
  refine ⟨unescape_escape, ?_⟩
  intro s t h
  have h2 := congrArg unescapeWiFi h
  rwa [unescape_escape, unescape_escape] at h2

/-- Witness for C1 at concrete inputs containing all five special
characters. -/
theorem C1_wifi_escape_roundtrip_witness :
    unescapeWiFi (escapeWiFiString "a;b\\c:d,e\"f".data) = "a;b\\c:d,e\"f".data ∧
    ";x".data = ";x".data :=
  ⟨C1_wifi_escape_roundtrip.1 _, C1_wifi_escape_roundtrip.2 _ _ rfl⟩

theorem ite_append_right (c : Prop) [Decidable c] (a x : List Char) :
    (if c then a ++ x else a) = a ++ (if c then x else []) := by
  split <;> simp

theorem ite_append_right3 (c : Prop) [Decidable c] (a x y z : List Char) :
    (if c then a ++ x ++ y ++ z else a) = a ++ (if c then x ++ y ++ z else []) := by
  split <;> simp

theorem pairsOK_tail (R : Char → Char → Bool) (x : Char) (xs : List Char)
    (h : pairsOK R (x :: xs) = true) : pairsOK R xs = true := by
  cases xs with
  | nil => rfl
  | cons y ys =>
    simp only [pairsOK, Bool.and_eq_true] at h
    exact h.2

theorem pairsOK_append {R : Char → Char → Bool} {A B : List Char}
    (hA : pairsOK R A = true) (hB : pairsOK R B = true)
    (hbd : ∀ x ∈ A.getLast?, ∀ y ∈ B.head?, R x y = true) :
    pairsOK R (A ++ B) = true := by
  induction A with
  | nil => simpa using hB
  | cons a as ih =>
    cases as with
    | nil =>
      cases B with
      | nil => rfl
      | cons b bs =>
        have hr : R a b = true := hbd a (by simp) b (by simp)
        simp only [List.singleton_append, pairsOK, Bool.and_eq_true]
        exact ⟨hr, hB⟩
    | cons a2 as2 =>
      simp only [pairsOK, Bool.and_eq_true] at hA
      have hbd2 : ∀ x ∈ (a2 :: as2).getLast?, ∀ y ∈ B.head?, R x y = true := by
        intro x hx y hy
        apply hbd x _ y hy
        rwa [List.getLast?_cons_cons]
      have hrest := ih hA.2 hbd2
      simp only [List.cons_append, pairsOK, Bool.and_eq_true]
      exact ⟨hA.1, hrest⟩

theorem pairsOK_pair (R : Char → Char → Bool) :
    ∀ (s t : List Char) (a b : Char),
      pairsOK R (s ++ [a, b] ++ t) = true → R a b = true
  | [], t, a, b, h => by
      simp only [List.nil_append, List.cons_append, pairsOK, Bool.and_eq_true] at h
      exact h.1
  | x :: s, t, a, b, h =>
      pairsOK_pair R s t a b (pairsOK_tail R x ((s ++ [a, b]) ++ t) h)

theorem pairsOK_no_pair {R : Char → Char → Bool} {l : List Char}
    (h : pairsOK R l = true) {a b : Char} (hR : R a b = false) :
    ¬ ([a, b] <:+: l) := by
  intro hinf
  obtain ⟨s, t, rfl⟩ := hinf
  have hr := pairsOK_pair R s t a b h
  rw [hR] at hr
  exact Bool.false_ne_true hr

theorem head_app_ne_colon {A B : List Char}
    (hA : A.head? ≠ some ':') (hB : B.head? ≠ some ':') :
    (A ++ B).head? ≠ some ':' := by
  cases A with
  | nil => simpa using hB
  | cons a as => simpa using hA

theorem pairsOK_glue {q : Char → Bool} {A B : List Char}
    (hA : pairsOK (colB q) A = true) (hB : pairsOK (colB q) B = true)
    (hBh : B.head? ≠ some ':') : pairsOK (colB q) (A ++ B) = true := by
  apply pairsOK_append hA hB
  intro x hx y hy
  rw [Option.mem_def] at hy
  have hyc : y ≠ ':' := fun e => hBh (by rw [← e]; exact hy)
  have hbne : (y != ':') = true := by
    simp [bne_iff_ne]
    exact hyc
  simp [colB, hbne]

theorem escape_head_ne_colon (s : List Char) :
    (escapeWiFiString s).head? ≠ some ':' := by
  cases s with
  | nil => decide
  | cons x xs =>
    rw [escapeWiFiString_cons, escapeWiFiString_single]
    cases hw : wifiSpecial x with
    | true =>
      simp only [if_true, List.cons_append, List.head?_cons]
      decide
    | false =>
      have hx : x ≠ ':' := by
        intro e; rw [e] at hw; exact absurd hw (by decide)
      simp only [Bool.false_eq_true, if_false, List.singleton_append,
        List.head?_cons]
      simp [hx]

theorem escape_pairs {q : Char → Bool} (hq : q '\\' = true) (s : List Char) :
    pairsOK (colB q) (escapeWiFiString s) = true := by
  induction s with
  | nil => rfl
  | cons x xs ih =>
    rw [escapeWiFiString_cons, escapeWiFiString_single]
    cases hw : wifiSpecial x with
    | true =>
      simp only [if_true]
      refine pairsOK_glue ?_ ih (escape_head_ne_colon xs)
      simp [pairsOK, colB, hq]
    | false =>
      simp only [Bool.false_eq_true, if_false]
      refine pairsOK_glue ?_ ih (escape_head_ne_colon xs)
      rfl

theorem encodeWiFi_eq (c : WiFiCredentials) :
    encodeWiFi c =
      "WIFI:T:".data ++ encTag c.encryption ++ ";S:".data
        ++ escapeWiFiString c.ssid ++ ";".data
        ++ (if c.encryption ≠ WiFiEncryption.nopass ∧ (c.password).getD [] ≠ [] then
              "P:".data ++ escapeWiFiString ((c.password).getD []) ++ ";".data
            else [])
        ++ (if (c.hidden).getD false then "H:true;".data else [])
        ++ ";".data := by
  simp only [encodeWiFi]
  simp only [ite_append_right3, ite_append_right]

theorem pairsOK_wifi_shape {q : Char → Bool} {T E H : List Char}
    (hT : pairsOK (colB q) T = true) (hTh : T.head? ≠ some ':')
    (hE : pairsOK (colB q) E = true) (hEh : E.head? ≠ some ':')
    (hH : pairsOK (colB q) H = true) (hHh : H.head? ≠ some ':')
    (hW : pairsOK (colB q) "WIFI:T:".data = true)
    (hS : pairsOK (colB q) ";S:".data = true)
    (hM : pairsOK (colB q) ";".data = true) :
    pairsOK (colB q)
      ("WIFI:T:".data ++ (T ++ (";S:".data ++ (E ++ (";".data ++ (H ++ ";".data))))))
      = true := by
  have m : (";".data : List Char).head? ≠ some ':' := by decide
  have s : (";S:".data : List Char).head? ≠ some ':' := by decide
  have a1 := pairsOK_glue hH hM m
  have a1h := head_app_ne_colon hHh m
  have a2 := pairsOK_glue hM a1 a1h
  have a2h := head_app_ne_colon m a1h
  have a3 := pairsOK_glue hE a2 a2h
  have a3h := head_app_ne_colon hEh a2h
  have a4 := pairsOK_glue hS a3 a3h
  have a4h := head_app_ne_colon s a3h
  have a5 := pairsOK_glue hT a4 a4h
  have a5h := head_app_ne_colon hTh a4h
  exact pairsOK_glue hW a5 a5h

theorem suffix_lift {s B : List Char} (A : List Char) (h : s <:+ B) :
    s <:+ A ++ B :=
  h.trans (List.suffix_append A B)

theorem encodeWiFi_chain_noP (c : WiFiCredentials)
    (h : c.encryption = WiFiEncryption.nopass ∨ (c.password).getD [] = []) :
    pairsOK (colB (fun a => a != 'P')) (encodeWiFi c) = true := by
  have hcond :
      ¬ (c.encryption ≠ WiFiEncryption.nopass ∧ (c.password).getD [] ≠ []) := by
    rcases h with h | h
    · exact fun hc => hc.1 h
    · exact fun hc => hc.2 h
  rw [encodeWiFi_eq, if_neg hcond]
  simp only [List.append_assoc, List.append_nil, List.nil_append]
  refine pairsOK_wifi_shape ?_ ?_ ?_ ?_ ?_ ?_ (by decide) (by decide) (by decide)
  · cases c.encryption <;> decide
  · cases c.encryption <;> decide
  · exact escape_pairs (by decide) _
  · exact escape_head_ne_colon _
  · split <;> decide
  · split <;> decide

theorem encodeWiFi_chain_noH (c : WiFiCredentials)
    (h : (c.hidden).getD false = false) :
    pairsOK (colB (fun a => a != 'H')) (encodeWiFi c) = true := by
  have hcond : ¬ ((c.hidden).getD false = true) := by simp [h]
  rw [encodeWiFi_eq, if_neg hcond]
  simp only [List.append_assoc, List.append_nil, List.nil_append]
  refine pairsOK_wifi_shape ?_ ?_ ?_ ?_ ?_ ?_ (by decide) (by decide) (by decide)
  · cases c.encryption <;> decide
  · cases c.encryption <;> decide
  · exact escape_pairs (by decide) _
  · exact escape_head_ne_colon _
  · split
    · refine pairsOK_glue (by decide)
        (pairsOK_glue (escape_pairs (by decide) _) (by decide) (by decide)) ?_
      exact head_app_ne_colon (escape_head_ne_colon _) (by decide)
    · rfl
  · split
    · exact head_app_ne_colon (by decide)
        (head_app_ne_colon (escape_head_ne_colon _) (by decide))
    · decide

theorem wifi_ends_dsemi (c : WiFiCredentials) : [';', ';'] <:+ encodeWiFi c := by
  rw [encodeWiFi_eq]
  by_cases hh : (c.hidden).getD false = true
  case pos =>
    rw [if_pos hh]
    simp only [List.append_assoc, List.append_nil, List.nil_append]
    rw [show (['H', ':', 't', 'r', 'u', 'e', ';'] : List Char) ++ [';']
        = ['H', ':', 't', 'r', 'u', 'e'] ++ [';', ';'] from by decide]
    exact suffix_lift _ (suffix_lift _ (suffix_lift _ (suffix_lift _
      (suffix_lift _ (suffix_lift _ (List.suffix_append _ _))))))
  case neg =>
    rw [if_neg hh]
    by_cases hp : (c.encryption ≠ WiFiEncryption.nopass ∧ (c.password).getD [] ≠ [])
    · rw [if_pos hp]
      simp only [List.append_assoc, List.append_nil, List.nil_append]
      rw [show ([';'] : List Char) ++ [';'] = [';', ';'] from by decide]
      exact suffix_lift _ (suffix_lift _ (suffix_lift _ (suffix_lift _
        (suffix_lift _ (suffix_lift _ (List.suffix_append _ _))))))
    · rw [if_neg hp]
      simp only [List.append_assoc, List.append_nil, List.nil_append]
      rw [show ([';'] : List Char) ++ [';'] = [';', ';'] from by decide]
      exact suffix_lift _ (suffix_lift _ (suffix_lift _ (List.suffix_append _ _)))

/-- C2: the encodeWiFi output has no `P:` tag when encryption is nopass or
the password is empty, has the `H:true;` segment exactly when the hidden flag
is true, and always ends with a double semicolon. -/
theorem C2_encodeWiFi_segments :
    ∀ c : WiFiCredentials,
      ((c.encryption = WiFiEncryption.nopass ∨ (c.password).getD [] = []) →
        ¬ ("P:".data <:+: encodeWiFi c)) ∧
      (("H:true;".data <:+: encodeWiFi c) ↔ (c.hidden).getD false = true) ∧
      ";;".data <:+ encodeWiFi c := by
  intro c
  refine ⟨?_, ⟨?_, ?_⟩, wifi_ends_dsemi c⟩
  · intro h
    exact pairsOK_no_pair (encodeWiFi_chain_noP c h) (by decide)
  · intro hinf
    cases hhid : (c.hidden).getD false with
    | false =>
      exfalso
      exact pairsOK_no_pair (encodeWiFi_chain_noH c hhid) (by decide)
        ((show (['H', ':'] : List Char) <:+: "H:true;".data by decide).trans hinf)
    | true => rfl
  · intro hhid
    rw [encodeWiFi_eq, if_pos hhid]
    exact List.infix_append _ _ _

/-- Witness for C2 at a concrete credential with nopass encryption and a
non-empty password. -/
theorem C2_encodeWiFi_segments_witness :
    ¬ ("P:".data <:+:
        encodeWiFi ⟨"ab".data, some "pw".data, WiFiEncryption.nopass, none⟩) ∧
    ";;".data <:+
        encodeWiFi ⟨"ab".data, some "pw".data, WiFiEncryption.nopass, none⟩ :=
  ⟨(C2_encodeWiFi_segments _).1 (Or.inl rfl), (C2_encodeWiFi_segments _).2.2⟩

/-- C3 (evaluation at the failing input): `encodePhone` keeps a plus sign
that does not occur at the start of the cleaned number, because the regex
`[^\d+]` spares every plus sign; the claimed output, with the interior plus
removed, differs. -/
theorem C3_encodePhone_keeps_interior_plus :
    encodePhone "12+34".data = "tel:12+34".data ∧
    encodePhone "12+34".data ≠ "tel:1234".data := by
  constructor
  · decide
  · decide

/-- C9: `isValidLatitude` holds exactly on finite values between -90 and 90;
NaN, both infinities, and out-of-range values are rejected, and the spec
instances 90, -90, 90.0001, NaN evaluate as stated. -/
theorem C9_isValidLatitude :
    (∀ lat : JSNum, isValidLatitude lat = true ↔
      ∃ q : ℚ, lat = JSNum.fin q ∧ -90 ≤ q ∧ q ≤ 90) ∧
    isValidLatitude (JSNum.fin 90) = true ∧
    isValidLatitude (JSNum.fin (-90)) = true ∧
    isValidLatitude (JSNum.fin (900001 / 10000 : ℚ)) = false ∧
    isValidLatitude JSNum.nan = false := by
  refine ⟨?_, by decide, by decide,
    by simp [isValidLatitude, jsIsNaN, jsGe, jsLe]; norm_num, by decide⟩
  intro lat
  cases lat with
  | nan => simp [isValidLatitude, jsIsNaN]
  | posInf => simp [isValidLatitude, jsIsNaN, jsGe, jsLe]
  | negInf => simp [isValidLatitude, jsIsNaN, jsGe, jsLe]
  | fin q => simp [isValidLatitude, jsIsNaN, jsGe, jsLe]

theorem hexToRgb_none_iff (s : List Char) :
    hexToRgb s = none ↔ wellFormedHex s = false := by
  unfold hexToRgb wellFormedHex
  split
  · split <;> simp_all
  · simp

/-- C8: an input that does not parse as a 6-hex-digit color with optional
leading hash has luminance 0 (the defined fallback), and a well-formed input
always parses; all the functions involved are total, so no call can fail. -/
theorem C8_hex_fallback :
    ∀ hex : List Char,
      (wellFormedHex hex = false → getLuminance hex = 0) ∧
      (wellFormedHex hex = true → (hexToRgb hex).isSome = true) := by
  intro hex
  constructor
  · intro h
    have hn : hexToRgb hex = none := (hexToRgb_none_iff hex).mpr h
    simp [getLuminance, hn]
  · intro h
    rcases ho : hexToRgb hex with _ | v
    · rw [(hexToRgb_none_iff hex).mp ho] at h
      exact absurd h (by simp)
    · simp

/-- Witness for C8: a malformed color falls back to luminance 0, a
well-formed one parses. -/
theorem C8_hex_fallback_witness :
    getLuminance "zz".data = 0 ∧ (hexToRgb "#a1B2c3".data).isSome = true :=
  ⟨(C8_hex_fallback _).1 (by decide), (C8_hex_fallback _).2 (by decide)⟩

/-- C6: the contrast ratio and the whole classification result are symmetric
in the two color arguments. -/
theorem C6_contrast_symmetric :
    ∀ f b : List Char,
      getContrastRatio f b = getContrastRatio b f ∧
      checkContrastLevel f b = checkContrastLevel b f := by
  have hr : ∀ f b : List Char, getContrastRatio f b = getContrastRatio b f := by
    intro f b
    simp only [getContrastRatio]
    rw [max_comm, min_comm]
  intro f b
  refine ⟨hr f b, ?_⟩
  simp only [checkContrastLevel]
  rw [hr f b]

/-- C7: `checkContrastLevel` returns exactly the classification the spec
states as a function of the computed ratio, and that classification takes the
stated value on each of the four intervals. -/
theorem C7_contrast_classification :
    (∀ f b : List Char,
      checkContrastLevel f b = contrastSpecClass (getContrastRatio f b)) ∧
    (∀ r : ℝ,
      (7 ≤ r → contrastSpecClass r = ⟨r, .excellent, true, none⟩) ∧
      (4.5 ≤ r ∧ r < 7 → contrastSpecClass r = ⟨r, .good, true, none⟩) ∧
      (3 ≤ r ∧ r < 4.5 → contrastSpecClass r = ⟨r, .fair, true, some warnFair⟩) ∧
      (r < 3 → contrastSpecClass r = ⟨r, .poor, false, some warnPoor⟩)) := by
  refine ⟨fun f b => rfl, fun r => ⟨?_, ?_, ?_, ?_⟩⟩
  · intro h
    unfold contrastSpecClass
    rw [if_pos h]
  · intro h
    unfold contrastSpecClass
    rw [if_neg (not_le.mpr h.2), if_pos h.1]
  · intro h
    unfold contrastSpecClass
    rw [if_neg (not_le.mpr (lt_trans h.2 (by norm_num))),
      if_neg (not_le.mpr h.2), if_pos h.1]
  · intro h
    unfold contrastSpecClass
    rw [if_neg (not_le.mpr (lt_trans h (by norm_num))),
      if_neg (not_le.mpr (lt_trans h (by norm_num))), if_neg (not_le.mpr h)]

/-- Witness for C7 on one ratio from each interval. -/
theorem C7_contrast_classification_witness :
    contrastSpecClass 10 = ⟨10, .excellent, true, none⟩ ∧
    contrastSpecClass 5 = ⟨5, .good, true, none⟩ ∧
    contrastSpecClass 3.5 = ⟨3.5, .fair, true, some warnFair⟩ ∧
    contrastSpecClass 1 = ⟨1, .poor, false, some warnPoor⟩ :=
  ⟨(C7_contrast_classification.2 10).1 (by norm_num),
   (C7_contrast_classification.2 5).2.1 ⟨by norm_num, by norm_num⟩,
   (C7_contrast_classification.2 3.5).2.2.1 ⟨by norm_num, by norm_num⟩,
   (C7_contrast_classification.2 1).2.2.2 (by norm_num)⟩

/-- C4: `encodeEmail` produces `mailto:<email>`, followed — exactly when the
subject or body is present and non-empty — by a query with the
independently percent-encoded subject and body parameters in that order,
joined by an ampersand; the two spec examples evaluate as stated. -/
theorem C4_encodeEmail :
    (∀ d : EmailData, encodeEmail d = mailtoSpecForm d) ∧
    encodeEmail ⟨"a@b.com".data, none, none⟩ = "mailto:a@b.com".data ∧
    encodeEmail ⟨"a@b.com".data, some "Hi there".data, none⟩
      = "mailto:a@b.com?subject=Hi%20there".data := by
  refine ⟨?_, by decide, by decide⟩
  intro d
  unfold encodeEmail mailtoSpecForm
  cases hs : jsTruthy d.subject <;> cases hb : jsTruthy d.body <;>
    simp [hs, hb, List.intercalate]

/-- C5: `encodeVCard` produces exactly the vCard shape of the spec: the fixed
head, the `N` and `FN` lines, one line per populated optional field in the
fixed order, the phone digit-stripped exactly as in encodePhone, and the
`END:VCARD` terminator; in particular the output always begins with
`BEGIN:VCARD\nVERSION:3.0\n` and ends with `END:VCARD`. -/
theorem C5_encodeVCard :
    ∀ d : VCardData,
      encodeVCard d = vcardSpecForm d ∧
      "BEGIN:VCARD\nVERSION:3.0\n".data <+: encodeVCard d ∧
      "END:VCARD".data <:+ encodeVCard d := by
  intro d
  have he : encodeVCard d = vcardSpecForm d := by
    simp only [encodeVCard, vcardSpecForm, vcardLine]
    simp only [ite_append_right3, ite_append_right]
    simp [List.append_assoc]
  refine ⟨he, ?_, ?_⟩
  · rw [he]
    simp only [vcardSpecForm, List.append_assoc]
    exact List.prefix_append _ _
  · rw [he]
    unfold vcardSpecForm
    exact List.suffix_append _ _

theorem jsTruthy_emptyNorm (o : Option (List Char)) :
    jsTruthy (emptyNorm o) = jsTruthy o := by
  cases o with
  | none => rfl
  | some s =>
    cases s with
    | nil => rfl
    | cons a t => rfl

theorem getD_emptyNorm (o : Option (List Char)) :
    (emptyNorm o).getD [] = o.getD [] := by
  cases o with
  | none => rfl
  | some s =>
    cases s with
    | nil => rfl
    | cons a t => rfl

/-- C10: every encoder treats an optional text field supplied as the empty
string exactly like an absent field: encodeEmail drops the parameter,
encodeSMS emits no message suffix, encodeVCard omits the line, and encodeWiFi
omits the password segment whatever the encryption. -/
theorem C10_empty_optionals :
    (∀ d : EmailData,
      encodeEmail ⟨d.email, emptyNorm d.subject, emptyNorm d.body⟩ = encodeEmail d) ∧
    (∀ p : List Char, encodeSMS ⟨p, some []⟩ = "smsto:".data ++ cleanPhone p) ∧
    (∀ d : VCardData, encodeVCard (vcardEmptyNorm d) = encodeVCard d) ∧
    (∀ c : WiFiCredentials,
      encodeWiFi ⟨c.ssid, emptyNorm c.password, c.encryption, c.hidden⟩
        = encodeWiFi c) := by
  refine ⟨?_, ?_, ?_, ?_⟩
  · intro d
    simp [encodeEmail, jsTruthy_emptyNorm, getD_emptyNorm]
  · intro p
    rfl
  · intro d
    simp [encodeVCard, vcardEmptyNorm, jsTruthy_emptyNorm, getD_emptyNorm]
  · intro c
    simp [encodeWiFi, getD_emptyNorm]

example : escapeWiFiString "a;b".data = "a\\;b".data := by decide
example : unescapeWiFi (escapeWiFiString "a;b\\c:d,e\"f".data) = "a;b\\c:d,e\"f".data := by decide
example : encodePhone "+1 (234) 567-8900".data = "tel:+12345678900".data := by decide
example : encodePhone "12+34".data = "tel:12+34".data := by decide
example : encodeWiFi ⟨"net".data, some "pw".data, .WPA, some true⟩
    = "WIFI:T:WPA;S:net;P:pw;H:true;;".data := by decide
example : encodeWiFi ⟨"net".data, some "pw".data, .nopass, none⟩
    = "WIFI:T:nopass;S:net;;".data := by decide
example : encodeEmail ⟨"a@b.com".data, none, none⟩ = "mailto:a@b.com".data := by decide
example : encodeEmail ⟨"a@b.com".data, some "Hi there".data, none⟩
    = "mailto:a@b.com?subject=Hi%20there".data := by decide
example : encodeEmail ⟨"a@b.com".data, some "x".data, some "y&z".data⟩
    = "mailto:a@b.com?subject=x&body=y%26z".data := by decide
example : encodeSMS ⟨"+1 23".data, some "hi".data⟩ = "smsto:+123:hi".data := by decide
example : encodeVCard ⟨"Jo".data, "Doe".data, none, none, some "+1 2".data,
    none, none, some "addr".data, none⟩
    = "BEGIN:VCARD\nVERSION:3.0\nN:Doe;Jo;;;\nFN:Jo Doe\nTEL;TYPE=CELL:+12\nADR:;;addr;;;;\nEND:VCARD".data := by decide

end QRGen
